import Mathlib

/-!
Verification development for the Hux-Hue vibe-aware color engine.

The embedding models the two core modules:
* the gradient engine (hue-path resolution, OKLCH interpolation,
  gradient-stop optimization, style key-stop generation), and
* the vibe-harmony module (mood classification, companion generation).

Numbers are modelled as exact rationals.  The JavaScript `%` operator
(truncated remainder) is modelled by `jsMod`, and `Math.sin(t * Math.PI)`
is abstracted as an explicit function parameter `sinPi : Rat -> Rat`
(claims that depend on it assume only |sinPi t| <= 1).  Per-call
`Math.random()` is modelled as an explicit stream `r : Nat -> Rat`; each
sampling site reads a distinct index, in the same order as the source
draws values.  For claim C10 a second, NaN-aware embedding of the
chromatic-arc generator over `Option Rat` is given, where `none` models
a non-finite JavaScript number.
-/

namespace HuxHue

attribute [local semireducible] Rat.add Rat.mul Rat.sub Rat.inv Rat.ofScientific

/-- Truncation toward zero, as JavaScript division-based remainder uses
(kept kernel-computable via `Rat.floor`). -/
def truncQ (q : ℚ) : ℤ := if 0 ≤ q then Rat.floor q else -Rat.floor (-q)

/-- JavaScript `a % b` (remainder with the sign of the dividend). -/
def jsMod (a b : ℚ) : ℚ := a - b * truncQ (a / b)

/-- `normalizeHue` from the source: `((hue % 360) + 360) % 360`. -/
def normalizeHue (hue : ℚ) : ℚ := jsMod (jsMod hue 360 + 360) 360

/-- `clamp` from the source: `Math.max(min, Math.min(max, value))`. -/
def clamp (value lo hi : ℚ) : ℚ := max lo (min hi value)

/-- `lerp` from the source: `a + (b - a) * t`. -/
def lerp (a b t : ℚ) : ℚ := a + (b - a) * t

/-- The four hue-path policies of the gradient engine. -/
inductive HuePath
  | short
  | long
  | warm
  | cool
  deriving DecidableEq, Repr

/-- The signed hue delta computed inside `interpolateHue`, per path policy.
Both hues are first normalized to [0,360), exactly as the source does at the
top of `interpolateHue`; the sequential strict `>` / `<` corrections of the
source are kept as nested conditionals (the second test reads the updated
value). -/
def resolveDelta (h1 h2 : ℚ) (path : HuePath) : ℚ :=
  let h1n := normalizeHue h1
  let h2n := normalizeHue h2
  let diff := h2n - h1n
  match path with
  | .short =>
      let d1 := if 180 < diff then diff - 360 else diff
      if d1 < -180 then d1 + 360 else d1
  | .long =>
      let d1 := if 0 < diff ∧ diff < 180 then diff - 360 else diff
      if d1 < 0 ∧ -180 < d1 then d1 + 360 else d1
  | .warm =>
      let shortDiff := if 180 < diff then diff - 360 else if diff < -180 then diff + 360 else diff
      let midpoint := normalizeHue (h1n + shortDiff / 2)
      if 170 < midpoint ∧ midpoint < 280 then
        let d1 := if 0 < diff ∧ diff < 180 then diff - 360 else diff
        if d1 < 0 ∧ -180 < d1 then d1 + 360 else d1
      else diff
  | .cool =>
      let shortDiff := if 180 < diff then diff - 360 else if diff < -180 then diff + 360 else diff
      let midpoint := normalizeHue (h1n + shortDiff / 2)
      if 330 < midpoint ∨ midpoint < 60 then
        let d1 := if 0 < diff ∧ diff < 180 then diff - 360 else diff
        if d1 < 0 ∧ -180 < d1 then d1 + 360 else d1
      else diff

/-- `interpolateHue` from the source: normalize both hues, resolve the signed
delta along the chosen path, then `normalizeHue(h1 + diff * t)`. -/
def interpolateHue (h1 h2 t : ℚ) (path : HuePath) : ℚ :=
  normalizeHue (normalizeHue h1 + resolveDelta h1 h2 path * t)

/-- An OKLCH color with all coordinates present.  The constant `mode: 'oklch'`
tag of the source objects carries no data and is not modelled. -/
structure Color where
  l : ℚ
  c : ℚ
  h : ℚ
  deriving DecidableEq, Repr

/-- Lightness easing selector of `interpolateOKLCH` (default branch of the
source switch returns `t`, i.e. linear). -/
inductive Ease
  | linear
  | ease
  | easeIn
  | easeOut
  deriving DecidableEq, Repr

/-- `applyEasing` from the source. -/
def applyEasing (t : ℚ) : Ease → ℚ
  | .ease => if t < 0.5 then 2 * t * t else 1 - (-2 * t + 2) ^ 2 / 2
  | .easeIn => t * t
  | .easeOut => 1 - (1 - t) * (1 - t)
  | .linear => t

/-- Options of `interpolateOKLCH` (source defaults: short, linear, false). -/
structure InterpOptions where
  huePath : HuePath
  lightnessEase : Ease
  chromaBoost : Bool
  deriving DecidableEq, Repr

/-- `interpolateOKLCH` from the source.  `sinPi t` models `Math.sin(t * Math.PI)`. -/
def interpolateOKLCH (sinPi : ℚ → ℚ) (colorA colorB : Color) (steps : ℕ)
    (o : InterpOptions) : List Color :=
  (List.range (steps + 2)).map fun i =>
    let t : ℚ := (i : ℚ) / ((steps : ℚ) + 1)
    let easedT := applyEasing t o.lightnessEase
    let l := lerp colorA.l colorB.l easedT
    let h := interpolateHue colorA.h colorB.h t o.huePath
    let c :=
      if o.chromaBoost ∧ 0.2 < t ∧ t < 0.8 then
        lerp colorA.c colorB.c t * (1 + 0.2 * sinPi t)
      else lerp colorA.c colorB.c t
    { l := clamp l 0 1, c := clamp c 0 0.4, h := h }

/-- `getHueDistance` from the source (unsigned distance; `long` reports
`360 - shortDistance`). -/
def getHueDistance (h1 h2 : ℚ) (path : HuePath) : ℚ :=
  let h1n := normalizeHue h1
  let h2n := normalizeHue h2
  let diff := |h2n - h1n|
  let diff2 := if 180 < diff then 360 - diff else diff
  if path = .long then 360 - diff2 else diff2

/-- Options of `optimizeForGradient` (source defaults: short, true, true). -/
structure OptimizeOptions where
  huePath : HuePath
  boostChroma : Bool
  insertMidpoints : Bool
  deriving DecidableEq, Repr

/-- The source defaults of `optimizeForGradient`. -/
def defaultOptimizeOptions : OptimizeOptions :=
  { huePath := .short, boostChroma := true, insertMidpoints := true }

/-- Insertion step of the position sort used for intermediate stops. -/
def insertPos (x : ℚ × Color) : List (ℚ × Color) → List (ℚ × Color)
  | [] => [x]
  | y :: ys => if x.1 ≤ y.1 then x :: y :: ys else y :: insertPos x ys

/-- Sort (position, color) pairs ascending by position, modelling
`intermediateStops.sort((x, y) => x.position - y.position)`; all positions
used by the source are distinct (0.25 / 0.5 / 0.75). -/
def sortByPos : List (ℚ × Color) → List (ℚ × Color)
  | [] => []
  | x :: xs => insertPos x (sortByPos xs)

/-- The intermediate stops `optimizeForGradient` inserts between an adjacent
pair (a, b): the chroma-boost midpoint (position 0.5) and, when the hue
distance exceeds 90, the bridging quarter stops (positions 0.25 and 0.75),
pushed in source order and then sorted by position. -/
def intermediates (o : OptimizeOptions) (a b : Color) : List Color :=
  if ¬ o.insertMidpoints then []
  else
    let hueDist := getHueDistance a.h b.h o.huePath
    let chromaA := a.c
    let chromaB := b.c
    let boostStops : List (ℚ × Color) :=
      if o.boostChroma ∧ 0.03 < chromaA ∧ 0.03 < chromaB then
        [(0.5, { l := (a.l + b.l) / 2,
                 c := clamp (max chromaA chromaB * 1.15) 0 0.35,
                 h := interpolateHue a.h b.h 0.5 o.huePath })]
      else []
    let bridgeStops : List (ℚ × Color) :=
      if 90 < hueDist then
        [(0.25, { l := lerp a.l b.l 0.25,
                  c := lerp chromaA chromaB 0.25 * (if o.boostChroma then 1.1 else 1),
                  h := interpolateHue a.h b.h 0.25 o.huePath }),
         (0.75, { l := lerp a.l b.l 0.75,
                  c := lerp chromaA chromaB 0.75 * (if o.boostChroma then 1.1 else 1),
                  h := interpolateHue a.h b.h 0.75 o.huePath })]
      else []
    (sortByPos (boostStops ++ bridgeStops)).map Prod.snd

/-- Tail of the pair loop of `optimizeForGradient`: between the previous
color and each next color, emit the intermediates, then the next color. -/
def expandPairsGo (o : OptimizeOptions) (prev : Color) : List Color → List Color
  | [] => []
  | b :: rest => intermediates o prev b ++ (b :: expandPairsGo o b rest)

/-- The pair loop of `optimizeForGradient` including the final push of the
last color. -/
def expandPairs (o : OptimizeOptions) : List Color → List Color
  | [] => []
  | a :: rest => a :: expandPairsGo o a rest

/-- `optimizeForGradient` from the source (fewer than 2 colors: returned
unchanged). -/
def optimizeForGradient (colors : List Color) (o : OptimizeOptions) : List Color :=
  if colors.length < 2 then colors else expandPairs o colors

/-- An input color as the vibe-harmony module receives it: any coordinate may
be absent (JavaScript `undefined`), in which case each read site substitutes
its default via `??`. -/
structure ColorArg where
  l : Option ℚ
  c : Option ℚ
  h : Option ℚ
  deriving DecidableEq, Repr

/-- View a fully-specified color as an argument with all fields present. -/
def Color.toArg (x : Color) : ColorArg := ⟨some x.l, some x.c, some x.h⟩

/-- Energy levels of the mood classifier (from chroma). -/
inductive Energy
  | whisper
  | muted
  | moderate
  | vibrant
  | electric
  deriving DecidableEq, Repr

/-- Depth levels of the mood classifier (from lightness). -/
inductive Depth
  | abyss
  | deep
  | grounded
  | airy
  | soft
  | ethereal
  deriving DecidableEq, Repr

/-- Temperature labels of the mood classifier. -/
inductive Temperature
  | neutral
  | hot
  | warm
  | icy
  | cool
  | fresh
  | complex
  deriving DecidableEq, Repr

/-- The ten vibe families. -/
inductive Mood
  | moody
  | dreamy
  | jewel
  | pop
  | earthy
  | serene
  | ethereal
  | noir
  | botanical
  | balanced
  deriving DecidableEq, Repr

/-- Hue-spread selectors of the companion strategies. -/
inductive HueSpread
  | minimal
  | gentle
  | moderate
  | wide
  | organic
  deriving DecidableEq, Repr

/-- Temperature-bias selectors of the companion strategies. -/
inductive TempBias
  | preserve
  | soften
  | contrast
  | complement
  | warm
  | cool
  | fresh
  deriving DecidableEq, Repr

/-- A companion-generation strategy (the numeric description strings of the
source carry no data used by generation and are not modelled). -/
structure Strategy where
  chromaMin : ℚ
  chromaMax : ℚ
  lightMin : ℚ
  lightMax : ℚ
  hueSpread : HueSpread
  temperatureBias : TempBias
  neutralChance : ℚ
  deriving DecidableEq, Repr

/-- `classifyMood` from the source: the first-match rule cascade.  The `hue`
parameter is accepted but, as in the source, never read. -/
def classifyMood (energy : Energy) (depth : Depth) (temperature : Temperature)
    (hue : ℚ) : Mood :=
  if (energy = .muted ∨ energy = .whisper) ∧ (depth = .deep ∨ depth = .grounded) then .moody
  else if (energy = .muted ∨ energy = .whisper) ∧ (depth = .airy ∨ depth = .soft) then .dreamy
  else if (energy = .vibrant ∨ energy = .electric) ∧ (depth = .deep ∨ depth = .abyss) then .jewel
  else if (energy = .vibrant ∨ energy = .electric) ∧
      (depth = .airy ∨ depth = .soft ∨ depth = .ethereal) then .pop
  else if energy = .moderate ∧ (temperature = .warm ∨ temperature = .hot) then .earthy
  else if energy = .moderate ∧ (temperature = .cool ∨ temperature = .icy) then .serene
  else if depth = .ethereal ∨ (depth = .soft ∧ energy = .whisper) then .ethereal
  else if (depth = .abyss ∨ depth = .deep) ∧ (energy = .whisper ∨ energy = .muted) then .noir
  else if temperature = .fresh ∧ energy ≠ .whisper then .botanical
  else .balanced

/-- `determineCompanionStrategy` from the source: one fixed preset per mood,
ranges scaling off the input's own l and c (the `h` parameter is accepted but
never read, as in the source). -/
def determineCompanionStrategy (mood : Mood) (l c h : ℚ) : Strategy :=
  match mood with
  | .moody =>
      { chromaMin := max 0.02 (c * 0.4), chromaMax := c * 1.3,
        lightMin := l - 0.15, lightMax := l + 0.15,
        hueSpread := .wide, temperatureBias := .preserve, neutralChance := 0.3 }
  | .dreamy =>
      { chromaMin := c * 0.3, chromaMax := c * 1.2,
        lightMin := l - 0.10, lightMax := min 0.90 (l + 0.15),
        hueSpread := .gentle, temperatureBias := .soften, neutralChance := 0.2 }
  | .jewel =>
      { chromaMin := c * 0.6, chromaMax := c * 1.1,
        lightMin := l - 0.10, lightMax := l + 0.20,
        hueSpread := .wide, temperatureBias := .contrast, neutralChance := 0.15 }
  | .pop =>
      { chromaMin := c * 0.5, chromaMax := c * 1.2,
        lightMin := l - 0.20, lightMax := l + 0.15,
        hueSpread := .wide, temperatureBias := .complement, neutralChance := 0.1 }
  | .earthy =>
      { chromaMin := c * 0.4, chromaMax := c * 1.15,
        lightMin := l - 0.20, lightMax := l + 0.20,
        hueSpread := .organic, temperatureBias := .warm, neutralChance := 0.35 }
  | .serene =>
      { chromaMin := c * 0.5, chromaMax := c * 1.1,
        lightMin := l - 0.10, lightMax := l + 0.20,
        hueSpread := .gentle, temperatureBias := .cool, neutralChance := 0.25 }
  | .ethereal =>
      { chromaMin := 0.01, chromaMax := max 0.06 (c * 1.2),
        lightMin := 0.70, lightMax := 0.95,
        hueSpread := .gentle, temperatureBias := .soften, neutralChance := 0.4 }
  | .noir =>
      { chromaMin := 0.01, chromaMax := max 0.06 (c * 1.5),
        lightMin := 0.10, lightMax := 0.40,
        hueSpread := .minimal, temperatureBias := .preserve, neutralChance := 0.5 }
  | .botanical =>
      { chromaMin := c * 0.4, chromaMax := c * 1.2,
        lightMin := l - 0.15, lightMax := l + 0.20,
        hueSpread := .organic, temperatureBias := .fresh, neutralChance := 0.25 }
  | .balanced =>
      { chromaMin := c * 0.5, chromaMax := c * 1.2,
        lightMin := l - 0.15, lightMax := l + 0.15,
        hueSpread := .moderate, temperatureBias := .preserve, neutralChance := 0.2 }

/-- The full mood descriptor returned by `analyzeColorMood` (its `raw` field
is the defaulted triple). -/
structure MoodDescriptor where
  energy : Energy
  depth : Depth
  temperature : Temperature
  mood : Mood
  strategy : Strategy
  raw : Color
  deriving DecidableEq, Repr

/-- `analyzeColorMood` from the source.  Missing fields default to
l = 0.5, c = 0.1, h = 0 at the top read sites (`??`). -/
def analyzeColorMood (color : ColorArg) : MoodDescriptor :=
  let l := color.l.getD 0.5
  let c := color.c.getD 0.1
  let h := color.h.getD 0
  let energy : Energy :=
    if c < 0.04 then .whisper
    else if c < 0.08 then .muted
    else if c < 0.13 then .moderate
    else if c < 0.20 then .vibrant
    else .electric
  let depth : Depth :=
    if l < 0.25 then .abyss
    else if l < 0.40 then .deep
    else if l < 0.55 then .grounded
    else if l < 0.70 then .airy
    else if l < 0.85 then .soft
    else .ethereal
  let warmHues : Bool := decide ((0 ≤ h ∧ h < 70) ∨ 330 ≤ h)
  let coolHues : Bool := decide (170 ≤ h ∧ h < 280)
  let temperature : Temperature :=
    if c < 0.04 then .neutral
    else if warmHues then (if 0.15 < c then .hot else .warm)
    else if coolHues then (if 0.15 < c then .icy else .cool)
    else if 70 ≤ h ∧ h < 170 then .fresh
    else .complex
  let mood := classifyMood energy depth temperature h
  { energy := energy, depth := depth, temperature := temperature, mood := mood,
    strategy := determineCompanionStrategy mood l c h, raw := ⟨l, c, h⟩ }

/-- Roles assigned to palette entries. -/
inductive Role
  | source
  | neighbor
  | analogous
  | contrast
  | triadic
  | complement
  | lightGround
  | darkGround
  deriving DecidableEq, Repr

/-- One palette entry: a color and its role (the relational description
string of the source carries a textual rendering of the same data and is not
modelled). -/
structure PaletteEntry where
  color : Color
  role : Role
  deriving DecidableEq, Repr

/-- `describeCompanionRole` from the source: thresholds applied to
`Math.abs(normalizeHue(companion.h - input.h))` — note this is the
normalized difference in [0,360), not a circular distance. -/
def describeCompanionRole (input companion : Color) : Role :=
  let hueDiff := |normalizeHue (companion.h - input.h)|
  if hueDiff < 30 then .neighbor
  else if hueDiff < 60 then .analogous
  else if hueDiff < 120 then .contrast
  else if hueDiff < 160 then .triadic
  else .complement

/-- `biasTowardRange` of the vibe-harmony module: pulls a hue toward the
midpoint of a range.  Unlike the gradient-engine variant, it does NOT
normalize its return value. -/
def biasTowardRangeVH (hue rangeMin rangeMax strength : ℚ) : ℚ :=
  let normalized := normalizeHue hue
  let rangeMid := (rangeMin + rangeMax) / 2
  let d0 := rangeMid - normalized
  let d1 := if 180 < d0 then d0 - 360 else d0
  let d2 := if d1 < -180 then d1 + 360 else d1
  normalized + d2 * strength

/-- `biasTowardRange` of the gradient engine: same computation but the result
is normalized. -/
def biasTowardRangeGE (hue rangeMin rangeMax strength : ℚ) : ℚ :=
  let normalized := normalizeHue hue
  let rangeMid := (rangeMin + rangeMax) / 2
  let d0 := rangeMid - normalized
  let d1 := if 180 < d0 then d0 - 360 else d0
  let d2 := if d1 < -180 then d1 + 360 else d1
  normalizeHue (normalized + d2 * strength)

/-- The too-close test of `avoidClumping`. -/
def clumpTooClose (used : List ℚ) (minSep adjusted : ℚ) : Bool :=
  used.any fun u =>
    let diff := |normalizeHue (adjusted - u)|
    decide (min diff (360 - diff) < minSep)

/-- The bounded nudge loop of `avoidClumping` (at most 10 attempts; the nudge
alternates sign with the attempt parity). -/
def avoidClumpingAux (used : List ℚ) (minSep : ℚ) : ℕ → ℕ → ℚ → ℚ
  | 0, _, adjusted => adjusted
  | fuel + 1, attempts, adjusted =>
    if clumpTooClose used minSep adjusted then
      avoidClumpingAux used minSep fuel (attempts + 1)
        (normalizeHue (adjusted + minSep * (if attempts % 2 = 0 then 1 else -1)))
    else adjusted

/-- `avoidClumping` from the source. -/
def avoidClumping (hue : ℚ) (used : List ℚ) (minSep : ℚ) : ℚ :=
  if used.isEmpty then hue else avoidClumpingAux used minSep 10 0 hue

/-- Offset tables of `pickVibeHue`, per hue spread. -/
def spreadOffsets : HueSpread → List ℚ
  | .minimal => [10, -15, 20, -25, 30]
  | .gentle => [25, -30, 50, -55, 75]
  | .moderate => [40, -45, 80, 160, -90]
  | .wide => [60, 150, -80, 200, -120]
  | .organic => [30, -25, 55, -50, 80]

/-- Jitter scales of `pickVibeHue`, per hue spread. -/
def spreadJitter : HueSpread → ℚ
  | .minimal => 5
  | .gentle => 10
  | .moderate => 15
  | .wide => 20
  | .organic => 12

/-- `pickVibeHue` from the source.  `jitterDraw` is the single
`Math.random()` value drawn at the jitter site; `total` is accepted but, as
in the source, never read. -/
def pickVibeHue (jitterDraw baseHue : ℚ) (mood : MoodDescriptor)
    (index total : ℕ) (used : List ℚ) : ℚ :=
  let strategy := mood.strategy
  let offsets := spreadOffsets strategy.hueSpread
  let baseOffset := offsets.getD (index % offsets.length) 0
  let jitter := (jitterDraw - 0.5) * spreadJitter strategy.hueSpread * 2
  let t0 := baseHue + baseOffset + jitter
  let t1 :=
    match strategy.temperatureBias with
    | .warm => biasTowardRangeVH t0 0 60 0.3
    | .cool => biasTowardRangeVH t0 190 260 0.3
    | .fresh => biasTowardRangeVH t0 100 170 0.25
    | .contrast =>
        if index % 2 = 0 then biasTowardRangeVH t0 0 50 0.2
        else biasTowardRangeVH t0 200 260 0.2
    | .soften => baseHue + (t0 - baseHue) * 0.7
    | .preserve => t0
    | .complement => t0
  let t2 := avoidClumping (normalizeHue t1) used 25
  normalizeHue t2

/-- `generateSingleCompanion` from the source.  `r` is the random stream and
`base` the index of the first of its three draws (jitter, chroma variation,
lightness jitter, in source order). -/
def generateSingleCompanion (r : ℕ → ℚ) (base : ℕ) (input : Color)
    (mood : MoodDescriptor) (index total : ℕ) (used : List ℚ) : PaletteEntry :=
  let strategy := mood.strategy
  let targetHue := pickVibeHue (r base) mood.raw.h mood index total used
  let chromaVariation := r (base + 1) * 0.6 + 0.4
  let targetChroma :=
    clamp (strategy.chromaMin + (strategy.chromaMax - strategy.chromaMin) * chromaVariation)
      0.01 0.30
  let lightnessStep := ((index : ℚ) + 1) / ((total : ℚ) + 1)
  let targetLightness :=
    clamp (strategy.lightMin + (strategy.lightMax - strategy.lightMin) * lightnessStep +
        (r (base + 2) - 0.5) * 0.06)
      0.08 0.95
  let role := describeCompanionRole input ⟨targetLightness, targetChroma, targetHue⟩
  { color := ⟨targetLightness, targetChroma, normalizeHue targetHue⟩, role := role }

/-- `generateGroundingNeutral` from the source (three draws: chroma,
lightness, hue shift; the `input` parameter is accepted but the source reads
`mood.raw` instead). -/
def generateGroundingNeutral (r : ℕ → ℚ) (base : ℕ) (input : Color)
    (mood : MoodDescriptor) (index : ℕ) : PaletteEntry :=
  let l := mood.raw.l
  let h := mood.raw.h
  let neutralChroma := 0.01 + r base * 0.025
  let neutralLightness :=
    if 0.6 < l then 0.15 + r (base + 1) * 0.20
    else if l < 0.4 then 0.75 + r (base + 1) * 0.15
    else if index % 2 = 0 then 0.85 + r (base + 1) * 0.08
    else 0.18 + r (base + 1) * 0.12
  let neutralHue := normalizeHue (h + (r (base + 2) - 0.5) * 20)
  { color := ⟨neutralLightness, neutralChroma, neutralHue⟩,
    role := if 0.6 < neutralLightness then .lightGround else .darkGround }

/-- The chromatic-companion loop of `generateVibeCompanions`, threading the
used-hue accumulator; companion `i` reads draws `3*i .. 3*i+2`. -/
def genChromaticAux (r : ℕ → ℚ) (input : Color) (mood : MoodDescriptor)
    (total : ℕ) : ℕ → ℕ → List ℚ → List PaletteEntry
  | 0, _, _ => []
  | remaining + 1, i, used =>
    let comp := generateSingleCompanion r (3 * i) input mood i total used
    comp :: genChromaticAux r input mood total remaining (i + 1) (used ++ [comp.color.h])

/-- The grounding-neutral loop of `generateVibeCompanions`; neutral `i` reads
draws `startIdx + 3*i .. startIdx + 3*i + 2`. -/
def genNeutralsAux (r : ℕ → ℚ) (startIdx : ℕ) (input : Color)
    (mood : MoodDescriptor) : ℕ → ℕ → List PaletteEntry
  | 0, _ => []
  | remaining + 1, i =>
    generateGroundingNeutral r (startIdx + 3 * i) input mood i ::
      genNeutralsAux r startIdx input mood remaining (i + 1)

/-- JavaScript `Math.round` on the nonnegative values used here:
`Math.floor(q + 0.5)`. -/
def jsRound (q : ℚ) : ℤ := Rat.floor (q + 0.5)

/-- The descending-lightness comparison used to sort companions
(`(a, b) => b.color.l - a.color.l`). -/
def lightDesc (a b : PaletteEntry) : Prop := b.color.l ≤ a.color.l

instance : DecidableRel lightDesc :=
  fun a b => inferInstanceAs (Decidable (b.color.l ≤ a.color.l))

instance : IsTotal PaletteEntry lightDesc :=
  ⟨fun a b => (le_total b.color.l a.color.l).imp id id⟩

instance : IsTrans PaletteEntry lightDesc :=
  ⟨fun _ _ _ hab hbc => le_trans hbc hab⟩

/-- The result of `generateVibeCompanions` (the textual `moodDescription` and
`tips` fields render fixed strings per mood and are not modelled). -/
structure CompanionResult where
  palette : List PaletteEntry
  mood : Mood
  energy : Energy
  temperature : Temperature
  depth : Depth
  deriving DecidableEq, Repr

/-- `generateVibeCompanions` from the source (the unused `purpose` option is
not modelled).  Chromatic companions are generated first (threading used
hues), then grounding neutrals; all companions are sorted descending by
lightness, and the input, when included, is prepended unsorted. -/
def generateVibeCompanions (r : ℕ → ℚ) (inputColor : Color) (count : ℕ)
    (includeInput : Bool) : CompanionResult :=
  let mood := analyzeColorMood inputColor.toArg
  let targetCount := if includeInput then count - 1 else count
  let neutralSlots := (jsRound ((targetCount : ℚ) * mood.strategy.neutralChance)).toNat
  let chromaSlots := targetCount - neutralSlots
  let chromatic := genChromaticAux r inputColor mood chromaSlots chromaSlots 0 [inputColor.h]
  let neutrals := genNeutralsAux r (3 * chromaSlots) inputColor mood neutralSlots 0
  let companions := List.insertionSort lightDesc (chromatic ++ neutrals)
  let palette :=
    if includeInput then { color := inputColor, role := Role.source } :: companions
    else companions
  { palette := palette, mood := mood.mood, energy := mood.energy,
    temperature := mood.temperature, depth := mood.depth }

/-- The eight gradient styles. -/
inductive GStyle
  | atmospheric
  | jewel
  | earthy
  | dreamy
  | pop
  | noir
  | botanical
  | chromaticArc
  deriving DecidableEq, Repr

/-- `mapMoodToGradientStyle` from the source.  Over the closed mood
enumeration every mood is mapped, so the `|| 'chromatic-arc'` fallback of the
string table is unreachable. -/
def mapMoodToGradientStyle (mood : Mood) : GStyle :=
  match mood with
  | .moody => .atmospheric
  | .dreamy => .dreamy
  | .jewel => .jewel
  | .pop => .pop
  | .earthy => .earthy
  | .serene => .atmospheric
  | .ethereal => .dreamy
  | .noir => .noir
  | .botanical => .botanical
  | .balanced => .chromaticArc

/-- `determineHuePath` from the source (its dead `case 'serene'` label can
never match a gradient style and has no counterpart in the closed
enumeration). -/
def determineHuePath (baseColor : Color) (style : GStyle) : HuePath :=
  match style with
  | .earthy => .warm
  | .botanical => .warm
  | .dreamy => .cool
  | .chromaticArc => if 180 < baseColor.h then .warm else .cool
  | _ => .short

/-- `generateKeyStops` from the source: the per-style key-stop generators.
The `mood` parameter is accepted but, as in the source, never read, and the
unused `isWarmBase` binding of the chromatic-arc generator is dropped.
For the chromatic-arc generator this exact-rational embedding gives
`t = 0/0 = 0` at `stopCount = 1` where JavaScript produces NaN in every
coordinate; claim C10 is settled against the NaN-aware model
`chromaticArcKeyStopsNan` below, and theorems about `generateVibeGradient`
stop-coordinate ranges therefore exclude stop count 1, the one stop count on
which this model and the source diverge. -/
def generateKeyStops (sinPi : ℚ → ℚ) (baseColor : Color) (mood : MoodDescriptor)
    (style : GStyle) (stopCount : ℕ) : List Color :=
  let l := baseColor.l
  let c := baseColor.c
  let h := baseColor.h
  match style with
  | .atmospheric =>
      [baseColor,
       ⟨l * 0.85, c * 0.4, normalizeHue (h + 20)⟩,
       ⟨max 0.15 (l - 0.25), c * 0.6, normalizeHue (h + 160)⟩]
  | .jewel =>
      [⟨min 0.45 l, max 0.15 c, baseColor.h⟩,
       ⟨min 0.4 (l - 0.05), min 0.28 (c * 1.3), normalizeHue (h + 35)⟩,
       ⟨min 0.42 l, max 0.14 (c * 0.9), normalizeHue (h + 180)⟩]
  | .earthy =>
      let warmBase := normalizeHue (if 270 < h ∨ h < 90 then h else h + 30)
      [⟨l, min c 0.15, warmBase⟩,
       ⟨l + 0.05, c * 0.85, normalizeHue (warmBase + 15)⟩,
       ⟨l - 0.1, max 0.02 (c * 0.25), normalizeHue (warmBase - 10)⟩]
  | .dreamy =>
      let dreamShift : ℚ := if h < 200 then 60 else -40
      [⟨max 0.5 (l - 0.1), c * 0.7, h⟩,
       ⟨min 0.85 (l + 0.15), c * 0.5, normalizeHue (h + dreamShift)⟩,
       ⟨0.92, 0.02, normalizeHue (h + dreamShift * 1.2)⟩]
  | .pop =>
      [⟨baseColor.l, max 0.18 c, baseColor.h⟩,
       ⟨l + 0.05, max 0.16 (c * 0.95), normalizeHue (h + 180)⟩,
       ⟨l - 0.05, max 0.15 (c * 0.9), normalizeHue (h + 220)⟩]
  | .noir =>
      [⟨min 0.35 l, min 0.06 (c * 0.4), h⟩,
       ⟨0.12, 0.015, h⟩,
       ⟨0.18, min 0.05 (c * 0.3), normalizeHue (h + 180)⟩]
  | .botanical =>
      let greenBias := biasTowardRangeGE h 80 160 0.4
      [⟨l, min c 0.18, greenBias⟩,
       ⟨min 0.7 (l + 0.1), c * 0.9, normalizeHue (greenBias - 30)⟩,
       ⟨max 0.25 (l - 0.2), c * 0.5, normalizeHue (greenBias + 20)⟩]
  | .chromaticArc =>
      let arcLength : ℚ := if 4 ≤ stopCount then 120 else 90
      (List.range stopCount).map fun (i : ℕ) =>
        let t : ℚ := (i : ℚ) / ((stopCount : ℚ) - 1)
        let hueOffset := arcLength * t - arcLength / 2
        let targetHue := normalizeHue (h + hueOffset)
        let lightWave := sinPi t * 0.04
        let targetL := clamp (l + lightWave) 0.25 0.85
        let chromaWave := 1 + |t - 0.5| * 0.15
        let targetC := clamp (c * chromaWave) 0.08 0.28
        ⟨targetL, targetC, targetHue⟩

/-- Options of `generateVibeGradient`; `none` for style or hue path models
the source default `'auto'`. -/
structure GradientOptions where
  style : Option GStyle
  stops : ℕ
  huePath : Option HuePath
  deriving DecidableEq, Repr

/-- The result of `generateVibeGradient` (the static per-style description
string is not modelled). -/
structure GradientResult where
  stops : List Color
  keyStops : List Color
  style : GStyle
  mood : Mood
  energy : Energy
  temperature : Temperature
  huePath : HuePath
  deriving DecidableEq, Repr

/-- `generateVibeGradient` from the source: analyze mood, resolve style and
hue path, generate key stops, then expand via `optimizeForGradient` with
chroma boosting disabled for atmospheric and noir. -/
def generateVibeGradient (sinPi : ℚ → ℚ) (baseColor : Color)
    (o : GradientOptions) : GradientResult :=
  let mood := analyzeColorMood baseColor.toArg
  let resolvedStyle := o.style.getD (mapMoodToGradientStyle mood.mood)
  let resolvedHuePath := o.huePath.getD (determineHuePath baseColor resolvedStyle)
  let keyStops := generateKeyStops sinPi baseColor mood resolvedStyle o.stops
  let expandedStops := optimizeForGradient keyStops
    { huePath := resolvedHuePath,
      boostChroma := resolvedStyle != GStyle.atmospheric && resolvedStyle != GStyle.noir,
      insertMidpoints := true }
  { stops := expandedStops, keyStops := keyStops, style := resolvedStyle,
    mood := mood.mood, energy := mood.energy, temperature := mood.temperature,
    huePath := resolvedHuePath }

/-- A color of the NaN-aware model: `none` stands for a non-finite
JavaScript number. -/
structure NanColor where
  l : Option ℚ
  c : Option ℚ
  h : Option ℚ
  deriving DecidableEq, Repr

/-- Non-finite-propagating addition. -/
def addN : Option ℚ → Option ℚ → Option ℚ
  | some a, some b => some (a + b)
  | _, _ => none

/-- Non-finite-propagating subtraction. -/
def subN : Option ℚ → Option ℚ → Option ℚ
  | some a, some b => some (a - b)
  | _, _ => none

/-- Non-finite-propagating multiplication. -/
def mulN : Option ℚ → Option ℚ → Option ℚ
  | some a, some b => some (a * b)
  | _, _ => none

/-- Non-finite-propagating division; a zero divisor yields a non-finite
result (NaN for the 0/0 that arises here). -/
def divN : Option ℚ → Option ℚ → Option ℚ
  | some a, some b => if b = 0 then none else some (a / b)
  | _, _ => none

/-- Lift a unary function; a non-finite argument propagates, as for
`Math.sin(NaN)`. -/
def mapN (f : ℚ → ℚ) : Option ℚ → Option ℚ := Option.map f

/-- `clamp` on a possibly non-finite value: `Math.max(min, Math.min(max, NaN))`
is NaN, so `none` propagates. -/
def clampN (v : Option ℚ) (lo hi : ℚ) : Option ℚ := mapN (fun x => clamp x lo hi) v

/-- The chromatic-arc key-stop generator of `generateKeyStops`, embedded with
non-finite tracking: `t = i / (stopCount - 1)` is NaN (`none`) when
`stopCount = 1`, and every downstream coordinate computation propagates it.
This mirrors the same source lines as the `.chromaticArc` case of
`generateKeyStops`, over `Option` coordinates. -/
def chromaticArcKeyStopsNan (sinPi : ℚ → ℚ) (l c h : Option ℚ)
    (stopCount : ℕ) : List NanColor :=
  let arcLength : ℚ := if 4 ≤ stopCount then 120 else 90
  (List.range stopCount).map fun (i : ℕ) =>
    let t := divN (some (i : ℚ)) (some ((stopCount : ℚ) - 1))
    let hueOffset := subN (mulN (some arcLength) t) (some (arcLength / 2))
    let targetHue := mapN normalizeHue (addN h hueOffset)
    let lightWave := mulN (mapN sinPi t) (some 0.04)
    let targetL := clampN (addN l lightWave) 0.25 0.85
    let chromaWave := addN (some 1) (mulN (mapN abs (subN t (some 0.5))) (some 0.15))
    let targetC := clampN (mulN c chromaWave) 0.08 0.28
    ⟨targetL, targetC, targetHue⟩

/-- Modelled from the spec wording of claim C3: the companion role read off
the CIRCULAR hue distance `min(d, 360 - d)` between companion and input hue.
This is the reading the claim asserts; the source applies the thresholds to
the normalized difference itself. -/
def circularHueRole (companionHue inputHue : ℚ) : Role :=
  let d := |normalizeHue (companionHue - inputHue)|
  let cd := min d (360 - d)
  if cd < 30 then .neighbor
  else if cd < 60 then .analogous
  else if cd < 120 then .contrast
  else if cd < 160 then .triadic
  else .complement

/-- Well-formedness of an OKLCH color, as the spec data model states it:
l in [0,1], c in [0,0.4], h in [0,360). -/
def WellFormed (x : Color) : Prop :=
  0 ≤ x.l ∧ x.l ≤ 1 ∧ 0 ≤ x.c ∧ x.c ≤ 0.4 ∧ 0 ≤ x.h ∧ x.h < 360

instance : DecidablePred WellFormed := fun x =>
  inferInstanceAs (Decidable (0 ≤ x.l ∧ x.l ≤ 1 ∧ 0 ≤ x.c ∧ x.c ≤ 0.4 ∧ 0 ≤ x.h ∧ x.h < 360))

/-- The bound actually guaranteed by the gradient-stop optimizer: lightness
and hue as the data model states, but chroma only up to 0.44 (the bridging
quarter stops multiply an unclamped lerp of chromas up to 0.4 by 1.1). -/
def BoundedStop (x : Color) : Prop :=
  0 ≤ x.l ∧ x.l ≤ 1 ∧ 0 ≤ x.c ∧ x.c ≤ 0.44 ∧ 0 ≤ x.h ∧ x.h < 360

instance : DecidablePred BoundedStop := fun x =>
  inferInstanceAs (Decidable (0 ≤ x.l ∧ x.l ≤ 1 ∧ 0 ≤ x.c ∧ x.c ≤ 0.44 ∧ 0 ≤ x.h ∧ x.h < 360))

lemma ratFloor_eq_floor (q : ℚ) : Rat.floor q = ⌊q⌋ := by
  rw [Rat.floor_def', Rat.floor_def]

lemma truncQ_eq (q : ℚ) : truncQ q = if 0 ≤ q then ⌊q⌋ else ⌈q⌉ := by
  unfold truncQ
  split_ifs with h
  · exact ratFloor_eq_floor q
  · rw [ratFloor_eq_floor, Int.floor_neg, neg_neg]

lemma jsMod360_exists_int (a : ℚ) : ∃ k : ℤ, jsMod a 360 = a + 360 * k := by
  refine ⟨-truncQ (a / 360), ?_⟩
  unfold jsMod
  push_cast
  ring

lemma jsMod360_lt (a : ℚ) : jsMod a 360 < 360 := by
  unfold jsMod
  rw [truncQ_eq]
  split_ifs with h
  · have h1 : a / 360 < ⌊a / 360⌋ + 1 := Int.lt_floor_add_one _
    have h2 : a = a / 360 * 360 := (div_mul_cancel₀ a (by norm_num : (360:ℚ) ≠ 0)).symm
    nlinarith [h1]
  · have h1 : a / 360 ≤ (⌈a / 360⌉ : ℚ) := Int.le_ceil _
    have h2 : a = a / 360 * 360 := (div_mul_cancel₀ a (by norm_num : (360:ℚ) ≠ 0)).symm
    nlinarith [h1]

lemma jsMod360_neg_lt (a : ℚ) : -360 < jsMod a 360 := by
  unfold jsMod
  rw [truncQ_eq]
  split_ifs with h
  · have h1 : (⌊a / 360⌋ : ℚ) ≤ a / 360 := Int.floor_le _
    have h2 : a = a / 360 * 360 := (div_mul_cancel₀ a (by norm_num : (360:ℚ) ≠ 0)).symm
    nlinarith [h1]
  · have h1 : (⌈a / 360⌉ : ℚ) < a / 360 + 1 := Int.ceil_lt_add_one _
    have h2 : a = a / 360 * 360 := (div_mul_cancel₀ a (by norm_num : (360:ℚ) ≠ 0)).symm
    nlinarith [h1]

lemma jsMod360_nonneg {a : ℚ} (ha : 0 ≤ a) : 0 ≤ jsMod a 360 := by
  unfold jsMod
  rw [truncQ_eq]
  have hq : 0 ≤ a / 360 := by positivity
  rw [if_pos hq]
  have h1 : (⌊a / 360⌋ : ℚ) ≤ a / 360 := Int.floor_le _
  have h2 : a = a / 360 * 360 := (div_mul_cancel₀ a (by norm_num : (360:ℚ) ≠ 0)).symm
  nlinarith [h1]

lemma normalizeHue_nonneg (h : ℚ) : 0 ≤ normalizeHue h := by
  unfold normalizeHue
  exact jsMod360_nonneg (by linarith [jsMod360_neg_lt h])

lemma normalizeHue_lt (h : ℚ) : normalizeHue h < 360 := jsMod360_lt _

lemma normalizeHue_exists_int (h : ℚ) : ∃ k : ℤ, normalizeHue h = h + 360 * k := by
  obtain ⟨k1, hk1⟩ := jsMod360_exists_int h
  obtain ⟨k2, hk2⟩ := jsMod360_exists_int (jsMod h 360 + 360)
  refine ⟨k1 + k2 + 1, ?_⟩
  unfold normalizeHue
  rw [hk2, hk1]
  push_cast
  ring

lemma eq_of_range_and_congruent {x y : ℚ} (k : ℤ)
    (hx0 : 0 ≤ x) (hx1 : x < 360) (hy0 : 0 ≤ y) (hy1 : y < 360)
    (hxy : x = y + 360 * k) : x = y := by
  have hk0 : (-1 : ℚ) < (k : ℚ) := by nlinarith
  have hk1 : (k : ℚ) < 1 := by nlinarith
  have hk0' : (-1 : ℤ) < k := by exact_mod_cast hk0
  have hk1' : k < (1 : ℤ) := by exact_mod_cast hk1
  have : k = 0 := by omega
  subst this
  simpa using hxy

lemma normalizeHue_eq_self {h : ℚ} (h0 : 0 ≤ h) (h1 : h < 360) :
    normalizeHue h = h := by
  obtain ⟨k, hk⟩ := normalizeHue_exists_int h
  exact eq_of_range_and_congruent k (normalizeHue_nonneg h) (normalizeHue_lt h) h0 h1 hk

lemma normalizeHue_idem (h : ℚ) : normalizeHue (normalizeHue h) = normalizeHue h :=
  normalizeHue_eq_self (normalizeHue_nonneg h) (normalizeHue_lt h)

lemma normalizeHue_congr {a b : ℚ} (k : ℤ) (hab : a = b + 360 * k) :
    normalizeHue a = normalizeHue b := by
  obtain ⟨ka, hka⟩ := normalizeHue_exists_int a
  obtain ⟨kb, hkb⟩ := normalizeHue_exists_int b
  refine eq_of_range_and_congruent (k + ka - kb) (normalizeHue_nonneg a)
    (normalizeHue_lt a) (normalizeHue_nonneg b) (normalizeHue_lt b) ?_
  rw [hka, hkb, hab]
  push_cast
  ring

lemma clamp_mem {v lo hi : ℚ} (h : lo ≤ hi) : lo ≤ clamp v lo hi ∧ clamp v lo hi ≤ hi := by
  unfold clamp
  constructor
  · exact le_max_left _ _
  · exact max_le h (min_le_left _ _)

lemma le_clamp_of (v lo hi w : ℚ) (hl : w ≤ lo) : w ≤ clamp v lo hi :=
  le_trans hl (le_max_left _ _)

lemma clamp_le_of (v lo hi w : ℚ) (h : lo ≤ hi) (hh : hi ≤ w) : clamp v lo hi ≤ w :=
  le_trans (max_le h (min_le_left _ _)) hh

lemma lerp_mem {lo hi a b t : ℚ} (ha : lo ≤ a) (ha' : a ≤ hi) (hb : lo ≤ b) (hb' : b ≤ hi)
    (ht : 0 ≤ t) (ht' : t ≤ 1) : lo ≤ lerp a b t ∧ lerp a b t ≤ hi := by
  unfold lerp
  constructor <;> nlinarith


lemma interpolateHue_nonneg (h1 h2 t : ℚ) (p : HuePath) : 0 ≤ interpolateHue h1 h2 t p :=
  normalizeHue_nonneg _

lemma interpolateHue_lt (h1 h2 t : ℚ) (p : HuePath) : interpolateHue h1 h2 t p < 360 :=
  normalizeHue_lt _

lemma resolveDelta_congr (h1 h2 : ℚ) (p : HuePath) :
    ∃ k : ℤ, resolveDelta h1 h2 p = (normalizeHue h2 - normalizeHue h1) + 360 * k := by
  cases p <;> simp only [resolveDelta] <;> split_ifs <;>
    first
    | (refine ⟨0, ?_⟩; push_cast; ring1)
    | (refine ⟨1, ?_⟩; push_cast; ring1)
    | (refine ⟨-1, ?_⟩; push_cast; ring1)

lemma resolveDelta_short_bounds (h1 h2 : ℚ) :
    -180 ≤ resolveDelta h1 h2 .short ∧ resolveDelta h1 h2 .short ≤ 180 := by
  have b1 := normalizeHue_nonneg h1
  have b2 := normalizeHue_lt h1
  have b3 := normalizeHue_nonneg h2
  have b4 := normalizeHue_lt h2
  simp only [resolveDelta]
  split_ifs <;> constructor <;> linarith

lemma interpolateHue_eq_unnormalized (h1 h2 t : ℚ) (p : HuePath) :
    interpolateHue h1 h2 t p = normalizeHue (h1 + resolveDelta h1 h2 p * t) := by
  obtain ⟨k, hk⟩ := normalizeHue_exists_int h1
  unfold interpolateHue
  exact normalizeHue_congr k (by rw [hk]; ring)

lemma pickVibeHue_nonneg (j bh : ℚ) (mood : MoodDescriptor) (i t : ℕ) (used : List ℚ) :
    0 ≤ pickVibeHue j bh mood i t used := by
  simp only [pickVibeHue]
  exact normalizeHue_nonneg _

lemma pickVibeHue_lt (j bh : ℚ) (mood : MoodDescriptor) (i t : ℕ) (used : List ℚ) :
    pickVibeHue j bh mood i t used < 360 := by
  simp only [pickVibeHue]
  exact normalizeHue_lt _

/-- Claim C8: for every pair of hues and each of the four path policies,
interpolating at t = 0 gives the normalized start hue and at t = 1 the
normalized end hue. -/
theorem c8_interpolate_hue_endpoints :
    ∀ (h1 h2 : ℚ) (path : HuePath),
      interpolateHue h1 h2 0 path = normalizeHue h1 ∧
      interpolateHue h1 h2 1 path = normalizeHue h2 := by
  intro h1 h2 p
  constructor
  · unfold interpolateHue
    rw [mul_zero, add_zero, normalizeHue_idem]
  · obtain ⟨k, hk⟩ := resolveDelta_congr h1 h2 p
    unfold interpolateHue
    rw [mul_one, hk]
    have hsum : normalizeHue h1 + (normalizeHue h2 - normalizeHue h1 + 360 * (k : ℚ)) =
        normalizeHue h2 + 360 * (k : ℚ) := by ring
    rw [hsum, normalizeHue_congr k rfl, normalizeHue_idem]

/-- Claim C4 (amended): the short-path signed delta lies in the CLOSED
interval [-180, 180] (both endpoints occur: a normalized difference of
exactly +180 or -180 is left unmodified by the strict comparisons), and the
interpolated hue at t equals normalize(h1 + delta * t). -/
theorem c4_short_delta_amended :
    ∀ h1 h2 t : ℚ,
      (-180 ≤ resolveDelta h1 h2 HuePath.short ∧ resolveDelta h1 h2 HuePath.short ≤ 180) ∧
      interpolateHue h1 h2 t HuePath.short =
        normalizeHue (h1 + resolveDelta h1 h2 HuePath.short * t) ∧
      (normalizeHue h2 - normalizeHue h1 = 180 → resolveDelta h1 h2 HuePath.short = 180) ∧
      (normalizeHue h2 - normalizeHue h1 = -180 → resolveDelta h1 h2 HuePath.short = -180) := by
  intro h1 h2 t
  refine ⟨resolveDelta_short_bounds h1 h2, interpolateHue_eq_unnormalized h1 h2 t _, ?_, ?_⟩
  · intro h
    simp only [resolveDelta, h]
    norm_num
  · intro h
    simp only [resolveDelta, h]
    norm_num

/-- Claim C4 counterexample: at h1 = 180, h2 = 0 the short-path delta is
exactly -180, which is outside the claimed half-open interval (-180, 180]. -/
theorem c4_short_delta_counterexample :
    resolveDelta 180 0 HuePath.short = -180 ∧
    ¬ (-180 < resolveDelta 180 0 HuePath.short) := by
  constructor <;> decide

theorem c4_short_delta_amended_witness :
    resolveDelta 0 180 HuePath.short = 180 ∧ resolveDelta 270 90 HuePath.short = -180 :=
  ⟨(c4_short_delta_amended 0 180 0).2.2.1 (by decide),
   (c4_short_delta_amended 270 90 0).2.2.2 (by decide)⟩

/-- Claim C2 counterexample: analyzing {l:0.9, c:0.25, h:280} yields energy
electric, not the claimed vibrant (0.25 is not below the 0.20 threshold). -/
theorem c2_energy_counterexample :
    (analyzeColorMood ⟨some 0.9, some 0.25, some 280⟩).energy = Energy.electric ∧
    Energy.electric ≠ Energy.vibrant := by
  constructor <;> decide

/-- Claim C2 (amended): analyzing the color {l:0.9, c:0.25, h:280} yields
energy electric, depth ethereal, and mood pop. -/
theorem c2_analyze_example_amended :
    (analyzeColorMood ⟨some 0.9, some 0.25, some 280⟩).energy = Energy.electric ∧
    (analyzeColorMood ⟨some 0.9, some 0.25, some 280⟩).depth = Depth.ethereal ∧
    (analyzeColorMood ⟨some 0.9, some 0.25, some 280⟩).mood = Mood.pop := by
  refine ⟨?_, ?_, ?_⟩ <;> decide

/-- Claim C9: mood analysis substitutes l = 0.5, c = 0.1, h = 0 for missing
fields: analyzing a partially defined color equals analyzing the color with
its undefined fields replaced by those defaults. -/
theorem c9_mood_defaults :
    ∀ color : ColorArg,
      analyzeColorMood color =
        analyzeColorMood
          ⟨some (color.l.getD 0.5), some (color.c.getD 0.1), some (color.h.getD 0)⟩ := by
  intro color
  simp only [analyzeColorMood, Option.getD_some]

/-- Claim C3 (amended): a companion's assigned role is determined by the
threshold classification (neighbor below 30, analogous in [30,60), contrast
in [60,120), triadic in [120,160), else complement) applied to the NORMALIZED
hue difference `normalizeHue(companion.h - input.h)` in [0,360) — not to the
circular hue distance.  For differences above 180 degrees the two notions
disagree. -/
theorem c3_role_from_normalized_diff :
    ∀ (r : ℕ → ℚ) (base : ℕ) (input : Color) (mood : MoodDescriptor)
      (index total : ℕ) (used : List ℚ),
      (generateSingleCompanion r base input mood index total used).role =
        (let d := |normalizeHue
            ((generateSingleCompanion r base input mood index total used).color.h - input.h)|
         if d < 30 then Role.neighbor
         else if d < 60 then Role.analogous
         else if d < 120 then Role.contrast
         else if d < 160 then Role.triadic
         else Role.complement) := by
  intro r base input mood index total used
  unfold generateSingleCompanion
  dsimp only
  unfold describeCompanionRole
  rw [normalizeHue_eq_self (pickVibeHue_nonneg _ _ _ _ _ _) (pickVibeHue_lt _ _ _ _ _ _)]

set_option maxRecDepth 4000 in
/-- Claim C3 counterexample: with the constant random stream 1/2 and input
{l:0.5, c:0.1, h:100}, the generated palette contains a companion with hue 90
whose assigned role is complement, although its circular hue distance to the
input (10 degrees) would make it a neighbor under the claimed rule. -/
theorem c3_circular_role_counterexample :
    ((generateVibeCompanions (fun _ => 1/2) ⟨1/2, 1/10, 100⟩ 5 true).palette.getD 3
        ⟨⟨0, 0, 0⟩, Role.source⟩).role = Role.complement ∧
    ((generateVibeCompanions (fun _ => 1/2) ⟨1/2, 1/10, 100⟩ 5 true).palette.getD 3
        ⟨⟨0, 0, 0⟩, Role.source⟩).color.h = 90 ∧
    circularHueRole 90 100 = Role.neighbor ∧
    Role.complement ≠ Role.neighbor := by
  refine ⟨?_, ?_, ?_, ?_⟩ <;> decide

lemma optimizeForGradient_pair (a b : Color) (o : OptimizeOptions) :
    optimizeForGradient [a, b] o = a :: (intermediates o a b ++ [b]) := by
  simp [optimizeForGradient, expandPairs, expandPairsGo]

/-- Claim C5: for a two-color input with both chromas above 0.03 under
default options, the optimizer returns exactly 3 stops when the short-path
hue distance is below 90, and at hue distance 150 exactly 5 stops ordered
ascending by their fractional positions 0, 0.25, 0.5, 0.75, 1. -/
theorem c5_optimizer_stop_counts :
    ∀ a b : Color, 0.03 < a.c → 0.03 < b.c →
      (getHueDistance a.h b.h HuePath.short < 90 →
        (optimizeForGradient [a, b] defaultOptimizeOptions).length = 3) ∧
      (getHueDistance a.h b.h HuePath.short = 150 →
        optimizeForGradient [a, b] defaultOptimizeOptions =
          [a,
           ⟨lerp a.l b.l 0.25, lerp a.c b.c 0.25 * 1.1,
             interpolateHue a.h b.h 0.25 HuePath.short⟩,
           ⟨(a.l + b.l) / 2, clamp (max a.c b.c * 1.15) 0 0.35,
             interpolateHue a.h b.h 0.5 HuePath.short⟩,
           ⟨lerp a.l b.l 0.75, lerp a.c b.c 0.75 * 1.1,
             interpolateHue a.h b.h 0.75 HuePath.short⟩,
           b]) := by
  intro a b hac hbc
  rw [optimizeForGradient_pair]
  constructor
  · intro hdist
    have hno : ¬ (90 : ℚ) < getHueDistance a.h b.h HuePath.short := by linarith
    simp only [intermediates, defaultOptimizeOptions]
    rw [if_neg (by simp), if_pos ⟨trivial, hac, hbc⟩, if_neg hno]
    simp [sortByPos, insertPos]
  · intro hdist
    have hyes : (90 : ℚ) < getHueDistance a.h b.h HuePath.short := by rw [hdist]; norm_num
    simp only [intermediates, defaultOptimizeOptions]
    rw [if_neg (by simp), if_pos ⟨trivial, hac, hbc⟩, if_pos hyes]
    norm_num [sortByPos, insertPos]

theorem c5_optimizer_stop_counts_witness :
    (optimizeForGradient [⟨0.5, 0.1, 10⟩, ⟨0.5, 0.2, 40⟩] defaultOptimizeOptions).length = 3 ∧
    optimizeForGradient [⟨0.2, 0.1, 0⟩, ⟨0.6, 0.2, 150⟩] defaultOptimizeOptions =
      [⟨0.2, 0.1, 0⟩,
       ⟨lerp 0.2 0.6 0.25, lerp 0.1 0.2 0.25 * 1.1, interpolateHue 0 150 0.25 HuePath.short⟩,
       ⟨(0.2 + 0.6) / 2, clamp (max 0.1 0.2 * 1.15) 0 0.35, interpolateHue 0 150 0.5 HuePath.short⟩,
       ⟨lerp 0.2 0.6 0.75, lerp 0.1 0.2 0.75 * 1.1, interpolateHue 0 150 0.75 HuePath.short⟩,
       ⟨0.6, 0.2, 150⟩] :=
  ⟨(c5_optimizer_stop_counts ⟨0.5, 0.1, 10⟩ ⟨0.5, 0.2, 40⟩ (by norm_num) (by norm_num)).1
      (by decide),
   (c5_optimizer_stop_counts ⟨0.2, 0.1, 0⟩ ⟨0.6, 0.2, 150⟩ (by norm_num) (by norm_num)).2
      (by decide)⟩

lemma genChromaticAux_length (r : ℕ → ℚ) (input : Color) (mood : MoodDescriptor)
    (total : ℕ) : ∀ (remaining i : ℕ) (used : List ℚ),
    (genChromaticAux r input mood total remaining i used).length = remaining := by
  intro remaining
  induction remaining with
  | zero => intro i used; rfl
  | succ n ih => intro i used; simp [genChromaticAux, ih]

lemma genNeutralsAux_length (r : ℕ → ℚ) (startIdx : ℕ) (input : Color)
    (mood : MoodDescriptor) : ∀ (remaining i : ℕ),
    (genNeutralsAux r startIdx input mood remaining i).length = remaining := by
  intro remaining
  induction remaining with
  | zero => intro i; rfl
  | succ n ih => intro i; simp [genNeutralsAux, ih]

lemma jsRound_neutralChance_le (m : Mood) (l c h : ℚ) :
    (jsRound (4 * (determineCompanionStrategy m l c h).neutralChance)).toNat ≤ 4 := by
  cases m <;> simp only [determineCompanionStrategy] <;> decide

lemma analyzeColorMood_strategy (ca : ColorArg) :
    (analyzeColorMood ca).strategy =
      determineCompanionStrategy (analyzeColorMood ca).mood
        (ca.l.getD 0.5) (ca.c.getD 0.1) (ca.h.getD 0) := rfl

/-- Claim C6: for every input color and every outcome of the random stream,
generateVibeCompanions with count 5 and includeInput true returns a palette
of exactly 5 entries; entry 0 is the input color with role source, and the
remaining entries are in non-increasing order of lightness. -/
theorem c6_companion_palette_shape :
    ∀ (r : ℕ → ℚ) (input : Color),
      (generateVibeCompanions r input 5 true).palette.length = 5 ∧
      (generateVibeCompanions r input 5 true).palette.head? =
        some ⟨input, Role.source⟩ ∧
      List.Sorted lightDesc (generateVibeCompanions r input 5 true).palette.tail := by
  intro r input
  have hns : (jsRound ((4 : ℚ) * (analyzeColorMood input.toArg).strategy.neutralChance)).toNat
      ≤ 4 := by
    rw [analyzeColorMood_strategy]
    exact jsRound_neutralChance_le _ _ _ _
  simp only [generateVibeCompanions]
  norm_num
  refine ⟨?_, ?_⟩
  · rw [genChromaticAux_length, genNeutralsAux_length]
    omega
  · exact List.sorted_insertionSort lightDesc _

lemma wave_bound (sinPi : ℚ → ℚ) (hsin : ∀ x, |sinPi x| ≤ 1) (t : ℚ) :
    |sinPi t * 0.04| ≤ 0.04 := by
  rw [abs_mul]
  have h1 := hsin t
  have h2 : |(0.04 : ℚ)| = 0.04 := by norm_num
  rw [h2]
  nlinarith [abs_nonneg (sinPi t)]

lemma chromaticArc_hue_list (sinPi : ℚ → ℚ) (bl bc : ℚ) (mood : MoodDescriptor) :
    (generateKeyStops sinPi ⟨bl, bc, 200⟩ mood GStyle.chromaticArc 4).map (fun s => s.h) =
    [140, 180, 220, 260] := by
  simp only [generateKeyStops, show List.range 4 = [0, 1, 2, 3] from rfl,
    List.map_cons, List.map_nil, List.cons.injEq, and_true]
  norm_num
  refine ⟨?_, ?_, ?_, ?_⟩ <;> decide

/-- Claim C7: generating a chromatic-arc gradient with 4 stops from a base
color with hue 200 produces key stops with hues exactly 140, 180, 220, 260;
each lightness lies in [0.25, 0.85] and is the clamp of a value within 0.04
of the base lightness, and each chroma lies in [0.08, 0.28]. -/
theorem c7_chromatic_arc_key_stops :
    ∀ (sinPi : ℚ → ℚ) (base : Color),
      (∀ x, |sinPi x| ≤ 1) → base.h = 200 →
      ((generateVibeGradient sinPi base ⟨some GStyle.chromaticArc, 4, none⟩).keyStops.map
          (fun s => s.h) = [140, 180, 220, 260]) ∧
      (∀ s ∈ (generateVibeGradient sinPi base ⟨some GStyle.chromaticArc, 4, none⟩).keyStops,
        (0.25 ≤ s.l ∧ s.l ≤ 0.85) ∧ (0.08 ≤ s.c ∧ s.c ≤ 0.28) ∧
        ∃ w : ℚ, |w| ≤ 0.04 ∧ s.l = clamp (base.l + w) 0.25 0.85) := by
  intro sinPi base hsin hh
  obtain ⟨bl, bc, bh⟩ := base
  dsimp only at hh
  subst hh
  constructor
  · exact chromaticArc_hue_list sinPi bl bc (analyzeColorMood (Color.toArg ⟨bl, bc, 200⟩))
  · intro s hs
    have hs' : s ∈ generateKeyStops sinPi ⟨bl, bc, 200⟩
        (analyzeColorMood (Color.toArg ⟨bl, bc, 200⟩)) GStyle.chromaticArc 4 := hs
    simp only [generateKeyStops, show List.range 4 = [0, 1, 2, 3] from rfl,
      List.map_cons, List.map_nil, List.mem_cons, List.not_mem_nil, or_false] at hs'
    rcases hs' with rfl | rfl | rfl | rfl <;>
      exact ⟨clamp_mem (by norm_num), clamp_mem (by norm_num),
        ⟨_, wave_bound sinPi hsin _, rfl⟩⟩

theorem c7_chromatic_arc_key_stops_witness :
    (generateVibeGradient (fun _ => 0) ⟨0.5, 0.15, 200⟩
        ⟨some GStyle.chromaticArc, 4, none⟩).keyStops.map (fun s => s.h) =
      [140, 180, 220, 260] :=
  (c7_chromatic_arc_key_stops (fun _ => 0) ⟨0.5, 0.15, 200⟩ (fun _ => by norm_num) rfl).1

/-- Claim C10: the chromatic-arc generator at stopCount 1 computes
t = 0/0 (NaN), and every coordinate of the single returned key stop is
non-finite, for every base (finite or not); for stopCount at least 2 and
finite base coordinates, every key-stop coordinate is finite. -/
theorem c10_chromatic_arc_nan :
    ∀ (sinPi : ℚ → ℚ) (l c h : Option ℚ),
      chromaticArcKeyStopsNan sinPi l c h 1 = [⟨none, none, none⟩] ∧
      (∀ n : ℕ, 2 ≤ n → l.isSome → c.isSome → h.isSome →
        ∀ s ∈ chromaticArcKeyStopsNan sinPi l c h n,
          s.l.isSome ∧ s.c.isSome ∧ s.h.isSome) := by
  intro sinPi l c h
  constructor
  · rcases l with _ | lv <;> rcases c with _ | cv <;> rcases h with _ | hv <;> rfl
  · intro n h2 hl hc hh s hs
    obtain ⟨lv, rfl⟩ := Option.isSome_iff_exists.mp hl
    obtain ⟨cv, rfl⟩ := Option.isSome_iff_exists.mp hc
    obtain ⟨hv, rfl⟩ := Option.isSome_iff_exists.mp hh
    simp only [chromaticArcKeyStopsNan, List.mem_map, List.mem_range] at hs
    obtain ⟨i, hi, rfl⟩ := hs
    have hne : ((n : ℚ) - 1) ≠ 0 := by
      have h2' : (2 : ℚ) ≤ (n : ℚ) := by exact_mod_cast h2
      linarith
    refine ⟨?_, ?_, ?_⟩ <;> simp [divN, hne, addN, subN, mulN, mapN, clampN]

theorem c10_chromatic_arc_nan_witness :
    chromaticArcKeyStopsNan (fun _ => 0) (some 0) (some 0) (some 0) 1 =
      [⟨none, none, none⟩] ∧
    ((⟨some 0.25, some 0.08, some 315⟩ : NanColor).l.isSome ∧
      (⟨some 0.25, some 0.08, some 315⟩ : NanColor).c.isSome ∧
      (⟨some 0.25, some 0.08, some 315⟩ : NanColor).h.isSome) :=
  ⟨(c10_chromatic_arc_nan (fun _ => 0) (some 0) (some 0) (some 0)).1,
   (c10_chromatic_arc_nan (fun _ => 0) (some 0) (some 0) (some 0)).2 2 (by norm_num)
     (by decide) (by decide) (by decide) ⟨some 0.25, some 0.08, some 315⟩ (by decide)⟩

lemma wf_boundedStop {x : Color} (h : WellFormed x) : BoundedStop x := by
  obtain ⟨h1, h2, h3, h4, h5, h6⟩ := h
  exact ⟨h1, h2, h3, by linarith, h5, h6⟩

lemma interpolateOKLCH_wf (sinPi : ℚ → ℚ) (a b : Color) (steps : ℕ) (o : InterpOptions) :
    ∀ s ∈ interpolateOKLCH sinPi a b steps o, WellFormed s := by
  intro s hs
  simp only [interpolateOKLCH, List.mem_map] at hs
  obtain ⟨i, _, rfl⟩ := hs
  exact ⟨(clamp_mem (by norm_num)).1, (clamp_mem (by norm_num)).2,
    (clamp_mem (by norm_num)).1, (clamp_mem (by norm_num)).2,
    interpolateHue_nonneg _ _ _ _, interpolateHue_lt _ _ _ _⟩

lemma mem_insertPos (x : ℚ × Color) :
    ∀ (l : List (ℚ × Color)) (y : ℚ × Color), y ∈ insertPos x l ↔ y = x ∨ y ∈ l := by
  intro l
  induction l with
  | nil => intro y; simp [insertPos]
  | cons a as ih =>
      intro y
      simp only [insertPos]
      split_ifs <;> simp [List.mem_cons, ih] <;> tauto

lemma mem_sortByPos (y : ℚ × Color) : ∀ l, y ∈ sortByPos l ↔ y ∈ l := by
  intro l
  induction l with
  | nil => simp [sortByPos]
  | cons a as ih => simp [sortByPos, mem_insertPos, ih]

lemma mem_intermediates {o : OptimizeOptions} {a b s : Color}
    (hs : s ∈ intermediates o a b) :
    s = ⟨(a.l + b.l) / 2, clamp (max a.c b.c * 1.15) 0 0.35,
          interpolateHue a.h b.h 0.5 o.huePath⟩ ∨
    s = ⟨lerp a.l b.l 0.25, lerp a.c b.c 0.25 * (if o.boostChroma then 1.1 else 1),
          interpolateHue a.h b.h 0.25 o.huePath⟩ ∨
    s = ⟨lerp a.l b.l 0.75, lerp a.c b.c 0.75 * (if o.boostChroma then 1.1 else 1),
          interpolateHue a.h b.h 0.75 o.huePath⟩ := by
  unfold intermediates at hs
  by_cases h1 : o.insertMidpoints = true
  · rw [if_neg (not_not_intro h1)] at hs
    dsimp only at hs
    by_cases h2 : o.boostChroma = true ∧ 0.03 < a.c ∧ 0.03 < b.c
    · rw [if_pos h2] at hs
      rw [h2.1] at hs ⊢
      by_cases h3 : 90 < getHueDistance a.h b.h o.huePath
      · rw [if_pos h3] at hs
        norm_num [sortByPos, insertPos, List.mem_cons] at hs ⊢
        tauto
      · rw [if_neg h3] at hs
        norm_num [sortByPos, insertPos, List.mem_cons] at hs ⊢
        tauto
    · rw [if_neg h2] at hs
      by_cases h3 : 90 < getHueDistance a.h b.h o.huePath
      · rw [if_pos h3] at hs
        norm_num [sortByPos, insertPos, List.mem_cons] at hs ⊢
        tauto
      · rw [if_neg h3] at hs
        norm_num [sortByPos, insertPos] at hs
  · rw [if_pos h1] at hs
    simp at hs

lemma intermediates_bounds {o : OptimizeOptions} {a b : Color}
    (ha : WellFormed a) (hb : WellFormed b) :
    ∀ s ∈ intermediates o a b, BoundedStop s := by
  obtain ⟨ha1, ha2, ha3, ha4, ha5, ha6⟩ := ha
  obtain ⟨hb1, hb2, hb3, hb4, hb5, hb6⟩ := hb
  intro s hs
  have hfac : (if o.boostChroma then (1.1 : ℚ) else 1) = 1.1 ∨
      (if o.boostChroma then (1.1 : ℚ) else 1) = 1 := by
    split_ifs <;> simp
  have hc14 : 0 ≤ lerp a.c b.c 0.25 ∧ lerp a.c b.c 0.25 ≤ 0.4 :=
    lerp_mem ha3 ha4 hb3 hb4 (by norm_num) (by norm_num)
  have hc34 : 0 ≤ lerp a.c b.c 0.75 ∧ lerp a.c b.c 0.75 ≤ 0.4 :=
    lerp_mem ha3 ha4 hb3 hb4 (by norm_num) (by norm_num)
  have hl14 : 0 ≤ lerp a.l b.l 0.25 ∧ lerp a.l b.l 0.25 ≤ 1 :=
    lerp_mem ha1 ha2 hb1 hb2 (by norm_num) (by norm_num)
  have hl34 : 0 ≤ lerp a.l b.l 0.75 ∧ lerp a.l b.l 0.75 ≤ 1 :=
    lerp_mem ha1 ha2 hb1 hb2 (by norm_num) (by norm_num)
  rcases mem_intermediates hs with rfl | rfl | rfl
  · exact ⟨by dsimp; linarith, by dsimp; linarith,
      le_clamp_of _ _ _ _ (by norm_num), clamp_le_of _ _ _ _ (by norm_num) (by norm_num),
      interpolateHue_nonneg _ _ _ _, interpolateHue_lt _ _ _ _⟩
  · refine ⟨hl14.1, hl14.2, ?_, ?_, interpolateHue_nonneg _ _ _ _, interpolateHue_lt _ _ _ _⟩ <;>
      rcases hfac with hf | hf <;> dsimp <;> rw [hf] <;> linarith [hc14.1, hc14.2]
  · refine ⟨hl34.1, hl34.2, ?_, ?_, interpolateHue_nonneg _ _ _ _, interpolateHue_lt _ _ _ _⟩ <;>
      rcases hfac with hf | hf <;> dsimp <;> rw [hf] <;> linarith [hc34.1, hc34.2]

lemma expandPairsGo_bounds (o : OptimizeOptions) :
    ∀ (l : List Color) (prev : Color), WellFormed prev → (∀ x ∈ l, WellFormed x) →
      ∀ s ∈ expandPairsGo o prev l, BoundedStop s := by
  intro l
  induction l with
  | nil => intro prev _ _ s hs; simp [expandPairsGo] at hs
  | cons b rest ih =>
      intro prev hprev hl s hs
      have hb : WellFormed b := hl b (by simp)
      simp only [expandPairsGo, List.mem_append, List.mem_cons] at hs
      rcases hs with hs | rfl | hs
      · exact intermediates_bounds hprev hb s hs
      · exact wf_boundedStop hb
      · exact ih b hb (fun x hx => hl x (by simp [hx])) s hs

lemma optimizeForGradient_bounds (colors : List Color) (o : OptimizeOptions)
    (h : ∀ x ∈ colors, WellFormed x) :
    ∀ s ∈ optimizeForGradient colors o, BoundedStop s := by
  intro s hs
  unfold optimizeForGradient at hs
  split_ifs at hs
  · exact wf_boundedStop (h s hs)
  · cases colors with
    | nil => simp [expandPairs] at hs
    | cons a rest =>
        simp only [expandPairs, List.mem_cons] at hs
        rcases hs with rfl | hs
        · exact wf_boundedStop (h s (by simp))
        · exact expandPairsGo_bounds o rest a (h a (by simp)) (fun x hx => h x (by simp [hx])) s hs

lemma intermediates_hue {o : OptimizeOptions} {a b : Color} :
    ∀ s ∈ intermediates o a b, 0 ≤ s.h ∧ s.h < 360 := by
  intro s hs
  rcases mem_intermediates hs with rfl | rfl | rfl <;>
    exact ⟨interpolateHue_nonneg _ _ _ _, interpolateHue_lt _ _ _ _⟩

lemma expandPairsGo_hue (o : OptimizeOptions) :
    ∀ (l : List Color) (prev : Color), (∀ x ∈ l, 0 ≤ x.h ∧ x.h < 360) →
      ∀ s ∈ expandPairsGo o prev l, 0 ≤ s.h ∧ s.h < 360 := by
  intro l
  induction l with
  | nil => intro prev _ s hs; simp [expandPairsGo] at hs
  | cons b rest ih =>
      intro prev hl s hs
      simp only [expandPairsGo, List.mem_append, List.mem_cons] at hs
      rcases hs with hs | rfl | hs
      · exact intermediates_hue s hs
      · exact hl s (by simp)
      · exact ih b (fun x hx => hl x (by simp [hx])) s hs

lemma optimizeForGradient_hue (colors : List Color) (o : OptimizeOptions)
    (h : ∀ x ∈ colors, 0 ≤ x.h ∧ x.h < 360) :
    ∀ s ∈ optimizeForGradient colors o, 0 ≤ s.h ∧ s.h < 360 := by
  intro s hs
  unfold optimizeForGradient at hs
  split_ifs at hs
  · exact h s hs
  · cases colors with
    | nil => simp [expandPairs] at hs
    | cons a rest =>
        simp only [expandPairs, List.mem_cons] at hs
        rcases hs with rfl | hs
        · exact h s (by simp)
        · exact expandPairsGo_hue o rest a (fun x hx => h x (by simp [hx])) s hs

lemma biasTowardRangeGE_mem (hue mn mx st : ℚ) :
    0 ≤ biasTowardRangeGE hue mn mx st ∧ biasTowardRangeGE hue mn mx st < 360 := by
  simp only [biasTowardRangeGE]
  exact ⟨normalizeHue_nonneg _, normalizeHue_lt _⟩

lemma generateKeyStops_hue (sinPi : ℚ → ℚ) (base : Color) (mood : MoodDescriptor)
    (style : GStyle) (n : ℕ) (h0 : 0 ≤ base.h) (h1 : base.h < 360) :
    ∀ s ∈ generateKeyStops sinPi base mood style n, 0 ≤ s.h ∧ s.h < 360 := by
  intro s hs
  cases style <;>
    simp only [generateKeyStops, List.mem_cons, List.mem_map, List.mem_range,
      List.not_mem_nil, or_false] at hs
  case chromaticArc =>
    obtain ⟨i, _, rfl⟩ := hs
    exact ⟨normalizeHue_nonneg _, normalizeHue_lt _⟩
  all_goals
    rcases hs with rfl | rfl | rfl <;>
      first
      | exact ⟨h0, h1⟩
      | exact ⟨normalizeHue_nonneg _, normalizeHue_lt _⟩
      | exact biasTowardRangeGE_mem _ _ _ _

lemma generateSingleCompanion_wf (r : ℕ → ℚ) (base : ℕ) (input : Color)
    (mood : MoodDescriptor) (index total : ℕ) (used : List ℚ) :
    WellFormed (generateSingleCompanion r base input mood index total used).color := by
  unfold generateSingleCompanion
  dsimp only
  exact ⟨le_clamp_of _ _ _ _ (by norm_num), clamp_le_of _ _ _ _ (by norm_num) (by norm_num),
    le_clamp_of _ _ _ _ (by norm_num), clamp_le_of _ _ _ _ (by norm_num) (by norm_num),
    normalizeHue_nonneg _, normalizeHue_lt _⟩

lemma generateGroundingNeutral_wf (r : ℕ → ℚ) (hr : ∀ n, 0 ≤ r n ∧ r n < 1)
    (base : ℕ) (input : Color) (mood : MoodDescriptor) (index : ℕ) :
    WellFormed (generateGroundingNeutral r base input mood index).color := by
  have h0 := hr base
  have h1 := hr (base + 1)
  unfold generateGroundingNeutral
  dsimp only
  refine ⟨?_, ?_, ?_, ?_, normalizeHue_nonneg _, normalizeHue_lt _⟩ <;>
    split_ifs <;> linarith [h0.1, h0.2, h1.1, h1.2]

lemma genChromaticAux_wf (r : ℕ → ℚ) (input : Color) (mood : MoodDescriptor) (total : ℕ) :
    ∀ (remaining i : ℕ) (used : List ℚ),
      ∀ e ∈ genChromaticAux r input mood total remaining i used, WellFormed e.color := by
  intro remaining
  induction remaining with
  | zero => intro i used e he; simp [genChromaticAux] at he
  | succ n ih =>
      intro i used e he
      simp only [genChromaticAux, List.mem_cons] at he
      rcases he with rfl | he
      · exact generateSingleCompanion_wf _ _ _ _ _ _ _
      · exact ih _ _ e he

lemma genNeutralsAux_wf (r : ℕ → ℚ) (hr : ∀ n, 0 ≤ r n ∧ r n < 1) (startIdx : ℕ)
    (input : Color) (mood : MoodDescriptor) :
    ∀ (remaining i : ℕ), ∀ e ∈ genNeutralsAux r startIdx input mood remaining i,
      WellFormed e.color := by
  intro remaining
  induction remaining with
  | zero => intro i e he; simp [genNeutralsAux] at he
  | succ n ih =>
      intro i e he
      simp only [genNeutralsAux, List.mem_cons] at he
      rcases he with rfl | he
      · exact generateGroundingNeutral_wf r hr _ _ _ _
      · exact ih _ e he

/-- Claim C1 (amended): interpolateOKLCH always emits colors with l in [0,1],
c in [0,0.4], h in [0,360); for well-formed inputs the gradient optimizer
guarantees l in [0,1] and h in [0,360) but chroma only up to 0.44 (bridging
quarter stops are boosted without a clamp); every companion-palette color is
well-formed (given a random stream in [0,1)); and the vibe-gradient key and
expanded stops have h in [0,360) for every stop count other than 1 — at
chromatic-arc stop count 1 the source produces NaN in every coordinate (see
claim C10), so that degenerate case is excluded here — while their l and c
can leave the claimed ranges (see the counterexample). -/
theorem c1_generation_invariants :
    (∀ (sinPi : ℚ → ℚ) (a b : Color) (steps : ℕ) (o : InterpOptions),
      ∀ s ∈ interpolateOKLCH sinPi a b steps o, WellFormed s) ∧
    (∀ (colors : List Color) (o : OptimizeOptions), (∀ x ∈ colors, WellFormed x) →
      ∀ s ∈ optimizeForGradient colors o, BoundedStop s) ∧
    (∀ (r : ℕ → ℚ) (input : Color) (count : ℕ) (includeInput : Bool),
      (∀ n, 0 ≤ r n ∧ r n < 1) → WellFormed input →
      ∀ e ∈ (generateVibeCompanions r input count includeInput).palette,
        WellFormed e.color) ∧
    (∀ (sinPi : ℚ → ℚ) (base : Color) (o : GradientOptions), WellFormed base → o.stops ≠ 1 →
      (∀ s ∈ (generateVibeGradient sinPi base o).keyStops, 0 ≤ s.h ∧ s.h < 360) ∧
      (∀ s ∈ (generateVibeGradient sinPi base o).stops, 0 ≤ s.h ∧ s.h < 360)) := by
  refine ⟨interpolateOKLCH_wf, optimizeForGradient_bounds, ?_, ?_⟩
  · intro r input count includeInput hr hwf e he
    simp only [generateVibeCompanions] at he
    split at he
    · rcases List.mem_cons.mp he with rfl | hin
      · exact hwf
      · have hin2 := (List.perm_insertionSort lightDesc _).subset hin
        rcases List.mem_append.mp hin2 with hc | hn
        · exact genChromaticAux_wf _ _ _ _ _ _ _ e hc
        · exact genNeutralsAux_wf _ hr _ _ _ _ _ e hn
    · have hin2 := (List.perm_insertionSort lightDesc _).subset he
      rcases List.mem_append.mp hin2 with hc | hn
      · exact genChromaticAux_wf _ _ _ _ _ _ _ e hc
      · exact genNeutralsAux_wf _ hr _ _ _ _ _ e hn
  · intro sinPi base o hwf hone
    obtain ⟨_, _, _, _, h5, h6⟩ := hwf
    have hkh : ∀ s ∈ generateKeyStops sinPi base (analyzeColorMood base.toArg)
        (o.style.getD (mapMoodToGradientStyle (analyzeColorMood base.toArg).mood)) o.stops,
        0 ≤ s.h ∧ s.h < 360 :=
      generateKeyStops_hue _ _ _ _ _ h5 h6
    exact ⟨hkh, optimizeForGradient_hue _ _ hkh⟩

theorem c1_generation_invariants_witness :
    WellFormed (⟨0, 0, 0⟩ : Color) ∧ BoundedStop (⟨0, 0, 0⟩ : Color) ∧
    (0 ≤ (⟨0, 0, 0⟩ : Color).h ∧ (⟨0, 0, 0⟩ : Color).h < 360) :=
  ⟨c1_generation_invariants.1 (fun _ => 0) ⟨0, 0, 0⟩ ⟨0, 0, 0⟩ 0
      ⟨HuePath.short, Ease.linear, false⟩ ⟨0, 0, 0⟩ (by decide),
   c1_generation_invariants.2.1 [⟨0, 0, 0⟩] defaultOptimizeOptions
      (by intro x hx; simp at hx; subst hx; decide) ⟨0, 0, 0⟩ (by decide),
   (c1_generation_invariants.2.2.2 (fun _ => 0) ⟨0, 0, 0⟩ ⟨some GStyle.noir, 3, none⟩
      (by decide) (by decide)).1 ⟨0, 0, 0⟩ (by decide)⟩

set_option maxRecDepth 4000 in
/-- Claim C1 counterexample: for the well-formed base {l:1, c:0.1, h:0} the
earthy key-stop generator emits a stop with lightness 1.05 > 1, and for the
well-formed pair {l:0.5, c:0.4, h:0}, {l:0.5, c:0.4, h:150} the optimizer
emits a bridging stop with chroma 0.44 > 0.4. -/
theorem c1_invariant_violation_counterexample :
    WellFormed ⟨1, 0.1, 0⟩ ∧
    ((generateVibeGradient (fun _ => 0) ⟨1, 0.1, 0⟩
        ⟨some GStyle.earthy, 3, none⟩).keyStops.getD 1 ⟨0, 0, 0⟩).l = 1.05 ∧
    ¬ (((generateVibeGradient (fun _ => 0) ⟨1, 0.1, 0⟩
        ⟨some GStyle.earthy, 3, none⟩).keyStops.getD 1 ⟨0, 0, 0⟩).l ≤ 1) ∧
    WellFormed ⟨0.5, 0.4, 0⟩ ∧ WellFormed ⟨0.5, 0.4, 150⟩ ∧
    ((optimizeForGradient [⟨0.5, 0.4, 0⟩, ⟨0.5, 0.4, 150⟩]
        defaultOptimizeOptions).getD 1 ⟨0, 0, 0⟩).c = 0.44 ∧
    ¬ (((optimizeForGradient [⟨0.5, 0.4, 0⟩, ⟨0.5, 0.4, 150⟩]
        defaultOptimizeOptions).getD 1 ⟨0, 0, 0⟩).c ≤ 0.4) := by
  refine ⟨?_, ?_, ?_, ?_, ?_, ?_, ?_⟩ <;> decide

end HuxHue
